import Mathlib

set_option maxRecDepth 8192

/-!
Shallow embedding of the data-chatter tool execution pipeline.

Source of the model:
- internal/tools/database_tools.go : DatabaseQueryTool (Validate, Execute, GetDefinition)
- internal/types + tool registry (ToolRegistry.ExecuteTool, ToolRegistry.ExecuteTools)
- internal/handlers/database_handler.go : DatabaseHandler.QueryHandler
- internal/llm anthropic client : getAvailableTools

Go map values of type interface are modelled by the inductive GoValue; Go
byte slices are carried as their decoded text content (the code converts
them with a plain string conversion, which copies the bytes). Go time.Time
values are modelled as UTC wall-clock fields. Go string functions are
modelled on the underlying character lists; strings.ToUpper is modelled by
the ASCII character upper-casing, and strings.TrimSpace by trimming the
ASCII whitespace characters.
-/

/-- Go whitespace test used by strings.TrimSpace, restricted to ASCII. -/
def isGoSpace (c : Char) : Bool :=
  c = ' ' || c = '\t' || c = '\n' || c = '\r' || c = '\x0b' || c = '\x0c'

/-- Model of strings.TrimSpace: drop whitespace from both ends. -/
def goTrimSpace (s : String) : String :=
  String.mk (((s.data.dropWhile isGoSpace).reverse.dropWhile isGoSpace).reverse)

/-- Model of strings.ToUpper (ASCII). -/
def goToUpper (s : String) : String :=
  String.mk (s.data.map Char.toUpper)

/-- The normalization performed in Validate: strings.ToUpper of strings.TrimSpace. -/
def goNorm (s : String) : String := goToUpper (goTrimSpace s)

/-- Model of strings.HasPrefix s pre. -/
def goStartsWith (s pre : String) : Bool := pre.data.isPrefixOf s.data

/-- Substring scan on character lists, as strings.Contains does. -/
def listContains (sub : List Char) : List Char → Bool
  | [] => sub.isEmpty
  | c :: rest => sub.isPrefixOf (c :: rest) || listContains sub rest

/-- Model of strings.Contains s sub. -/
def goContains (s sub : String) : Bool := listContains sub.data s.data

/-- Go time.Time value, modelled as UTC wall-clock fields. -/
structure GoTime where
  year : Nat
  month : Nat
  day : Nat
  hour : Nat
  minute : Nat
  second : Nat
  deriving DecidableEq

/-- A dynamic Go value (interface) as it appears in tool input maps and
database rows. Byte slices are carried as their decoded text. -/
inductive GoValue where
  | str (s : String)
  | num (n : Int)
  | boolean (b : Bool)
  | bytes (text : String)
  | time (t : GoTime)
  | null
  deriving DecidableEq

/-- A Go map from string to interface value, as an association list with
unique keys (Go map reads return the first matching key). -/
abbrev InputMap := List (String × GoValue)

/-- Go map read input[key]. -/
def lookupInput : InputMap → String → Option GoValue
  | [], _ => none
  | (k, v) :: rest, key => if k = key then some v else lookupInput rest key

/-- The dangerousKeywords list of DatabaseQueryTool.Validate, in source order. -/
def dangerousKeywords : List String :=
  ["DROP", "DELETE", "UPDATE", "INSERT", "ALTER", "CREATE", "TRUNCATE"]

/-- The keyword loop of Validate: the first dangerous keyword contained in
the upper-cased query yields the error message, otherwise none. -/
def findForbidden (queryUpper : String) : Option String :=
  match dangerousKeywords.find? (fun k => goContains queryUpper k) with
  | some k => some ("query contains forbidden keyword: " ++ k)
  | none => none

/-- DatabaseQueryTool.Validate from internal/tools/database_tools.go:
type-assert input query to string, reject the empty string, then check the
trimmed upper-cased query for the SELECT start and for dangerous keywords.
Returns the Go error message, or none on success. -/
def Validate (input : InputMap) : Option String :=
  match lookupInput input "query" with
  | some (GoValue.str query) =>
    if query = "" then some "query cannot be empty"
    else if goStartsWith (goNorm query) "SELECT" then findForbidden (goNorm query)
    else some "only SELECT queries are allowed"
  | _ => some "query must be a string"

/-!
## JSON documents and the model of encoding/json MarshalIndent
-/

/-- A JSON document, as built by Execute before serialization. -/
inductive Json where
  | jnull
  | jbool (b : Bool)
  | jnum (n : Int)
  | jstr (s : String)
  | jarr (items : List Json)
  | jobj (fields : List (String × Json))

/-- Go map write m[k] = v: replace the value under an existing key,
otherwise append the binding. -/
def mapInsert (m : List (String × Json)) (k : String) (v : Json) : List (String × Json) :=
  match m with
  | [] => [(k, v)]
  | (k2, v2) :: rest => if k2 = k then (k2, v) :: rest else (k2, v2) :: mapInsert rest k v

/-- Insert one field into a key-sorted field list (MarshalIndent emits
object keys in sorted order). -/
def insFieldSorted (p : String × Json) : List (String × Json) → List (String × Json)
  | [] => [p]
  | q :: rest => if p.1 < q.1 then p :: q :: rest else q :: insFieldSorted p rest

/-- Sort a field list by key. -/
def sortFieldList : List (String × Json) → List (String × Json)
  | [] => []
  | p :: rest => insFieldSorted p (sortFieldList rest)

mutual
/-- Recursively sort every object's fields by key, as the Go JSON encoder
does when it serializes maps. -/
def sortJson : Json → Json
  | Json.jnull => Json.jnull
  | Json.jbool b => Json.jbool b
  | Json.jnum n => Json.jnum n
  | Json.jstr s => Json.jstr s
  | Json.jarr items => Json.jarr (sortJsonList items)
  | Json.jobj fs => Json.jobj (sortFieldList (sortJsonFields fs))
def sortJsonList : List Json → List Json
  | [] => []
  | j :: rest => sortJson j :: sortJsonList rest
def sortJsonFields : List (String × Json) → List (String × Json)
  | [] => []
  | (k, v) :: rest => (k, sortJson v) :: sortJsonFields rest
end

/-- One hexadecimal digit. -/
def hexDigit (n : Nat) : Char :=
  if n < 10 then Char.ofNat (48 + n) else Char.ofNat (87 + n)

/-- Escape one character as the Go JSON encoder does (including the HTML
escapes it applies by default). -/
def escChar (c : Char) : String :=
  if c = '"' then "\\\""
  else if c = '\\' then "\\\\"
  else if c = '\n' then "\\n"
  else if c = '\r' then "\\r"
  else if c = '\t' then "\\t"
  else if c = '<' then "\\u003c"
  else if c = '>' then "\\u003e"
  else if c = '&' then "\\u0026"
  else if c.toNat < 32 then
    "\\u00" ++ String.mk [hexDigit (c.toNat / 16), hexDigit (c.toNat % 16)]
  else String.mk [c]

/-- Escape a string for a JSON literal. -/
def jsonEscape (s : String) : String :=
  s.data.foldl (fun acc c => acc ++ escChar c) ""

/-- Opening brace of a JSON object. -/
def obrace : String := "\x7b"

/-- Closing brace of a JSON object. -/
def cbrace : String := "\x7d"

mutual
/-- Render a key-sorted JSON document with two-space indentation, as
json.MarshalIndent with empty line prefix and two-space indent does. -/
def renderJson (ind : String) : Json → String
  | Json.jnull => "null"
  | Json.jbool b => if b then "true" else "false"
  | Json.jnum n => toString n
  | Json.jstr s => "\"" ++ jsonEscape s ++ "\""
  | Json.jarr [] => "[]"
  | Json.jarr (j :: rest) =>
    "[\n" ++ renderItems (ind ++ "  ") (j :: rest) ++ "\n" ++ ind ++ "]"
  | Json.jobj [] => obrace ++ cbrace
  | Json.jobj (f :: rest) =>
    obrace ++ "\n" ++ renderFields (ind ++ "  ") (f :: rest) ++ "\n" ++ ind ++ cbrace
def renderItems (ind : String) : List Json → String
  | [] => ""
  | [j] => ind ++ renderJson ind j
  | j :: j2 :: rest => ind ++ renderJson ind j ++ ",\n" ++ renderItems ind (j2 :: rest)
def renderFields (ind : String) : List (String × Json) → String
  | [] => ""
  | [(k, v)] => ind ++ "\"" ++ jsonEscape k ++ "\": " ++ renderJson ind v
  | (k, v) :: f2 :: rest =>
    ind ++ "\"" ++ jsonEscape k ++ "\": " ++ renderJson ind v ++ ",\n" ++ renderFields ind (f2 :: rest)
end

/-- Model of json.MarshalIndent(v, lineprefix empty, two spaces). -/
def marshalIndent (j : Json) : String := renderJson "" (sortJson j)

/-!
## Tool call data structures (internal/types)
-/

/-- types.ToolError. -/
structure ToolError where
  type : String
  message : String
  deriving DecidableEq

/-- types.ToolContent (the Data field is unused by the modelled code). -/
structure ToolContent where
  type : String
  text : String
  deriving DecidableEq

/-- types.ToolResult (the Usage field is unused by the modelled code). -/
structure ToolResult where
  id : String := ""
  content : List ToolContent
  isError : Bool
  error : Option ToolError := none
  deriving DecidableEq

/-- types.ToolCall. -/
structure ToolCall where
  id : String
  type : String
  name : String
  input : InputMap
  deriving DecidableEq

/-- The outcome of a Go function returning a result pointer and an error:
either a runtime panic, or a pair of an optional result and an optional
error message. -/
inductive GoReturn (α : Type) where
  | panicked
  | ret (val : Option α) (err : Option String)
  deriving DecidableEq

/-!
## Database connection model
-/

/-- The cursor produced by a successful DB.Query call: the Columns call
outcome, the sequence of rows yielded by Next (each one a Scan outcome),
and the iteration error reported by Err after the loop. -/
structure DbRows where
  columns : Except String (List String)
  rows : List (Except String (List GoValue))
  iterErr : Option String

/-- The outcome of DB.Query: a driver error or a cursor. -/
inductive DbResponse where
  | fail (e : String)
  | ok (d : DbRows)

/-- A database connection, as the oracle mapping each SQL text to the
outcome of running it. -/
abbrev ConnModel := String → DbResponse

/-- Scan the yielded rows in order, stopping at the first Scan error, as
the rows.Next loop in Execute does. -/
def scanAll : List (Except String (List GoValue)) → Except String (List (List GoValue))
  | [] => Except.ok []
  | Except.error e :: _ => Except.error e
  | Except.ok v :: rest =>
    match scanAll rest with
    | Except.error e => Except.error e
    | Except.ok vs => Except.ok (v :: vs)

/-!
## DatabaseQueryTool.Execute
-/

/-- Zero-pad a number to two digits. -/
def pad2 (n : Nat) : String := if n < 10 then "0" ++ toString n else toString n

/-- Zero-pad a number to four digits. -/
def pad4 (n : Nat) : String :=
  if n < 10 then "000" ++ toString n
  else if n < 100 then "00" ++ toString n
  else if n < 1000 then "0" ++ toString n
  else toString n

/-- Model of time.Time.Format with the RFC 3339 layout, for UTC values. -/
def formatRFC3339 (t : GoTime) : String :=
  pad4 t.year ++ "-" ++ pad2 t.month ++ "-" ++ pad2 t.day ++ "T" ++
  pad2 t.hour ++ ":" ++ pad2 t.minute ++ ":" ++ pad2 t.second ++ "Z"

/-- The per-value conversion in the row loop of Execute: byte slices are
converted to strings, time values are formatted as RFC 3339, nil stays
nil, everything else passes through unchanged. -/
def convertValue : GoValue → GoValue
  | GoValue.bytes text => GoValue.str text
  | GoValue.time t => GoValue.str (formatRFC3339 t)
  | v => v

/-- A JSON value for a converted Go value (converted rows contain no raw
byte or time values anymore; for completeness those render as their text). -/
def jsonOfGoValue : GoValue → Json
  | GoValue.str s => Json.jstr s
  | GoValue.num n => Json.jnum n
  | GoValue.boolean b => Json.jbool b
  | GoValue.bytes text => Json.jstr text
  | GoValue.time t => Json.jstr (formatRFC3339 t)
  | GoValue.null => Json.jnull

/-- The row map built by the column loop of Execute: for each column at
index i, store the converted value at the column name. -/
def rowJson (cols : List String) (vals : List GoValue) : Json :=
  Json.jobj ((cols.zip vals).foldl
    (fun acc cv => mapInsert acc cv.1 (jsonOfGoValue (convertValue cv.2))) [])

/-- The response document assembled by Execute. A Go nil slice (no rows)
marshals as JSON null, hence the empty case of data. -/
def responseJson (query : String) (cols : List String) (rows : List Json) : Json :=
  Json.jobj [("query", Json.jstr query),
             ("columns", Json.jarr (cols.map Json.jstr)),
             ("row_count", Json.jnum rows.length),
             ("data", if rows.isEmpty then Json.jnull else Json.jarr rows)]

/-- A structured query_error ToolResult, as Execute builds on each of its
failure paths. -/
def queryErrorResult (text msg : String) : ToolResult :=
  { id := "", content := [⟨"text", text⟩], isError := true,
    error := some ⟨"query_error", msg⟩ }

/-- The body of DatabaseQueryTool.Execute after the query string has been
extracted: run the query, fetch columns, scan and convert all rows, check
the iteration error, then marshal the response document. -/
def ExecuteCore (conn : ConnModel) (query : String) : ToolResult :=
  match conn query with
  | DbResponse.fail e => queryErrorResult ("Query execution failed: " ++ e) e
  | DbResponse.ok d =>
    match d.columns with
    | Except.error e => queryErrorResult ("Failed to get column names: " ++ e) e
    | Except.ok cols =>
      match scanAll d.rows with
      | Except.error e => queryErrorResult ("Failed to scan row: " ++ e) e
      | Except.ok scans =>
        match d.iterErr with
        | some e => queryErrorResult ("Error iterating rows: " ++ e) e
        | none =>
          { id := "",
            content := [⟨"text",
              marshalIndent (responseJson query cols (scans.map (rowJson cols)))⟩],
            isError := false, error := none }

/-- DatabaseQueryTool.Execute: type-asserts input query to string (a
runtime panic when it is not a string), then runs ExecuteCore. The second
component records the SQL texts submitted to the database connection. The
Go error component of the return is always nil. -/
def Execute (conn : ConnModel) (input : InputMap) : GoReturn ToolResult × List String :=
  match lookupInput input "query" with
  | some (GoValue.str query) => (GoReturn.ret (some (ExecuteCore conn query)) none, [query])
  | _ => (GoReturn.panicked, [])

/-!
## ToolRegistry dispatch

The registry contents model the engine after startup: NewToolEngine
registers exactly one executor, the DatabaseQueryTool under the fixed
name database_query.
-/

/-- ToolRegistry.ExecuteTool: an unregistered name yields a Go error (the
source message wraps the name in quotes; the model differs only in that
punctuation); a validation failure builds a validation_error ToolResult
whose ID is taken by an unchecked type assertion from input id, which
panics when that key is missing or not a string; a validated input is
passed to the executor. -/
def ExecuteTool (conn : ConnModel) (name : String) (input : InputMap) : GoReturn ToolResult :=
  if name = "database_query" then
    match Validate input with
    | some errMsg =>
      match lookupInput input "id" with
      | some (GoValue.str s) =>
        GoReturn.ret (some
          { id := s,
            content := [⟨"text", "Validation error: " ++ errMsg⟩],
            isError := true,
            error := some ⟨"validation_error", errMsg⟩ }) none
      | _ => GoReturn.panicked
    | none => (Execute conn input).1
  else GoReturn.ret none (some ("tool not found: " ++ name))

/-- The outcome of ToolRegistry.ExecuteTools: either a runtime panic that
escapes the loop, or the assembled result list. -/
inductive BatchOutcome where
  | panicked
  | results (rs : List ToolResult)

/-- ToolRegistry.ExecuteTools: run each call through ExecuteTool in input
order; a Go error becomes an execution_error result carrying the call ID,
a returned result is stored unchanged, and dereferencing a nil result (or
a panic inside ExecuteTool) aborts the loop as a panic. -/
def ExecuteTools (conn : ConnModel) : List ToolCall → BatchOutcome
  | [] => BatchOutcome.results []
  | c :: rest =>
    match ExecuteTool conn c.name c.input with
    | GoReturn.panicked => BatchOutcome.panicked
    | GoReturn.ret _ (some e) =>
      match ExecuteTools conn rest with
      | BatchOutcome.panicked => BatchOutcome.panicked
      | BatchOutcome.results rs =>
        BatchOutcome.results
          ({ id := c.id,
             content := [⟨"text", "Execution error: " ++ e⟩],
             isError := true,
             error := some ⟨"execution_error", e⟩ } :: rs)
    | GoReturn.ret (some r) none =>
      match ExecuteTools conn rest with
      | BatchOutcome.panicked => BatchOutcome.panicked
      | BatchOutcome.results rs => BatchOutcome.results (r :: rs)
    | GoReturn.ret none none => BatchOutcome.panicked

/-- The result the ExecuteTools loop body stores for one call when
ExecuteTool returns without panicking (the default case is unreachable
then). -/
def executeOneCall (conn : ConnModel) (c : ToolCall) : ToolResult :=
  match ExecuteTool conn c.name c.input with
  | GoReturn.ret (some r) none => r
  | GoReturn.ret _ (some e) =>
    { id := c.id, content := [⟨"text", "Execution error: " ++ e⟩],
      isError := true, error := some ⟨"execution_error", e⟩ }
  | _ => { id := "", content := [], isError := true, error := none }

/-!
## DatabaseHandler.QueryHandler (the direct /db/query path)

The HTTP method check and JSON body decoding are handled by the excluded
HTTP layer; the model starts from the decoded request fields. The second
component records the SQL texts submitted to the database connection.
-/

/-- DatabaseHandler.QueryHandler: reject an empty query with status 400,
default the limit to 100, then call the query tool Execute directly (the
limit is put in the input map but Execute ignores it). The result text is
re-parsed and returned with status 200. -/
def QueryHandler (conn : ConnModel) (reqQuery : String) (reqLimit : Int) : Nat × List String :=
  if reqQuery = "" then (400, [])
  else
    let lim : Int := if reqLimit = 0 then 100 else reqLimit
    let input : InputMap := [("query", GoValue.str reqQuery), ("limit", GoValue.num lim)]
    let out := Execute conn input
    let status : Nat :=
      match out.1 with
      | GoReturn.ret (some r) none => if 0 < r.content.length then 200 else 500
      | _ => 500
    (status, out.2)

/-!
## Tool definitions: the registry copy and the LLM client copy
-/

/-- A tool definition: types.ToolDefinition, and also the shape of the
client-side Tool struct sent to the LLM vendor (the two Go structs have
identical fields). -/
structure ToolDefinition where
  name : String
  description : String
  inputSchema : Json

/-- DatabaseQueryTool.GetDefinition, the definition the registry holds. -/
def GetDefinition : ToolDefinition :=
  { name := "database_query",
    description := "Execute a read-only SQL SELECT query on the database",
    inputSchema := Json.jobj
      [("type", Json.jstr "object"),
       ("properties", Json.jobj
         [("query", Json.jobj
           [("type", Json.jstr "string"),
            ("description", Json.jstr "SQL SELECT query to execute (include LIMIT clause if needed)")])]),
       ("required", Json.jarr [Json.jstr "query"])] }

/-- AnthropicClient.getAvailableTools, the hardcoded list the LLM client
sends to the vendor. -/
def getAvailableTools : List ToolDefinition :=
  [{ name := "database_query",
     description := "Execute a read-only SQL SELECT query on the database",
     inputSchema := Json.jobj
       [("type", Json.jstr "object"),
        ("properties", Json.jobj
          [("query", Json.jobj
            [("type", Json.jstr "string"),
             ("description", Json.jstr "SQL SELECT query to execute")]),
           ("limit", Json.jobj
             [("type", Json.jstr "integer"),
              ("description", Json.jstr "Maximum number of rows to return (default: 100, max: 1000)"),
              ("minimum", Json.jnum 1),
              ("maximum", Json.jnum 1000)])]),
        ("required", Json.jarr [Json.jstr "query"])] }]

/-- Field lookup in a JSON object (none on other document kinds). -/
def jsonField (j : Json) (key : String) : Option Json :=
  match j with
  | Json.jobj fs =>
    match fs.find? (fun f => f.1 = key) with
    | some f => some f.2
    | none => none
  | _ => none

/-- The schema subobject of one property of a tool definition. -/
def schemaProp (d : ToolDefinition) (p : String) : Option Json :=
  match jsonField d.inputSchema "properties" with
  | some props => jsonField props p
  | none => none

/-- A string-valued field of one schema property, as a string. -/
def schemaPropStr (d : ToolDefinition) (p f : String) : Option String :=
  match schemaProp d p with
  | some sub =>
    match jsonField sub f with
    | some (Json.jstr s) => some s
    | _ => none
  | none => none

/-- A number-valued field of one schema property, as an integer. -/
def schemaPropNum (d : ToolDefinition) (p f : String) : Option Int :=
  match schemaProp d p with
  | some sub =>
    match jsonField sub f with
    | some (Json.jnum n) => some n
    | _ => none
  | none => none

/-!
## Concrete connections and inputs used in witnesses
-/

/-- A connection on which every query fails at the execution stage. -/
def demoConnFail : ConnModel := fun _ => DbResponse.fail "connection lost"

/-- A connection on which every query yields one column x and one row
holding the integer 1. -/
def demoConnOk : ConnModel := fun _ =>
  DbResponse.ok { columns := Except.ok ["x"],
                  rows := [Except.ok [GoValue.num 1]],
                  iterErr := none }

/-- The first whitespace-delimited token of a string. Modelled from the
claim wording (first token of the normalized query), to compare with the
start-of-string check the source performs. -/
def specFirstToken (s : String) : String :=
  String.mk (s.data.takeWhile (fun c => !isGoSpace c))

/-- Failure of a database response at one of the four checked stages of
Execute: the query call itself, the column retrieval, some row scan, or
the post-loop iteration error. -/
def dbFails (resp : DbResponse) : Prop :=
  (∃ e, resp = DbResponse.fail e) ∨
  ∃ d, resp = DbResponse.ok d ∧
    ((∃ e, d.columns = Except.error e) ∨ (∃ e, scanAll d.rows = Except.error e) ∨
     (∃ e, d.iterErr = some e))

/-- A batch of two calls whose first call fails validation and carries no
id key in its input, as the documented call shape has. -/
def demoPanicCalls : List ToolCall :=
  [{ id := "call-1", type := "tool_use", name := "database_query", input := [] },
   { id := "call-2", type := "tool_use", name := "database_query",
     input := [("query", GoValue.str "SELECT 2")] }]

/-- A batch of two valid calls. -/
def demoGoodCalls : List ToolCall :=
  [{ id := "call-1", type := "tool_use", name := "database_query",
     input := [("query", GoValue.str "SELECT 1")] },
   { id := "call-2", type := "tool_use", name := "database_query",
     input := [("query", GoValue.str "SELECT 2")] }]

/-!
## Helper lemmas
-/

/-- A keyword error message is longer than any of the other Validate
messages, hence distinct from them. -/
lemma keywordMsg_ne (k t : String) (ht : t.length < 34) :
    "query contains forbidden keyword: " ++ k ≠ t := by
  intro h
  have hl := congrArg String.length h
  rw [String.length_append] at hl
  have h34 : ("query contains forbidden keyword: " : String).length = 34 := rfl
  rw [h34] at hl
  omega

/-- Every message produced by the keyword loop names a keyword. -/
lemma findForbidden_some (up m : String) (h : findForbidden up = some m) :
    ∃ k, m = "query contains forbidden keyword: " ++ k := by
  unfold findForbidden at h
  cases hf : dangerousKeywords.find? (fun k => goContains up k) with
  | none => rw [hf] at h; simp at h
  | some k => rw [hf] at h; simp at h; exact ⟨k, h.symm⟩

/-- If the keyword loop finds nothing, no dangerous keyword occurs. -/
lemma findForbidden_none (up : String) (h : findForbidden up = none) :
    ∀ k ∈ dangerousKeywords, goContains up k = false := by
  intro k hk
  unfold findForbidden at h
  cases hf : dangerousKeywords.find? (fun k => goContains up k) with
  | none => simpa using List.find?_eq_none.mp hf k hk
  | some k2 => rw [hf] at h; simp at h

/-- Characterization of a successful Validate run: the query is a
non-empty string whose normalization starts with SELECT and contains no
dangerous keyword. -/
lemma Validate_none_char (input : InputMap) (h : Validate input = none) :
    ∃ q, lookupInput input "query" = some (GoValue.str q) ∧ ¬ q = "" ∧
      goStartsWith (goNorm q) "SELECT" = true ∧ findForbidden (goNorm q) = none := by
  unfold Validate at h
  cases hl : lookupInput input "query" with
  | none => rw [hl] at h; simp at h
  | some v =>
    cases v with
    | str q =>
      rw [hl] at h
      dsimp only at h
      by_cases hq : q = ""
      · rw [if_pos hq] at h; simp at h
      · rw [if_neg hq] at h
        by_cases hp : goStartsWith (goNorm q) "SELECT" = true
        · rw [if_pos hp] at h
          exact ⟨q, rfl, hq, hp, h⟩
        · rw [if_neg hp] at h
          simp at h
    | num n => rw [hl] at h; simp at h
    | boolean b => rw [hl] at h; simp at h
    | bytes text => rw [hl] at h; simp at h
    | time t => rw [hl] at h; simp at h
    | null => rw [hl] at h; simp at h

/-- The must-be-a-string message appears exactly when the input holds no
string under the query key. -/
lemma Validate_eq_must_string (input : InputMap) :
    Validate input = some "query must be a string" ↔
      ∀ s, lookupInput input "query" ≠ some (GoValue.str s) := by
  unfold Validate
  constructor
  · intro h s hs
    rw [hs] at h
    dsimp only at h
    by_cases hq : s = ""
    · rw [if_pos hq] at h
      exact absurd (Option.some.inj h) (by decide)
    · rw [if_neg hq] at h
      by_cases hp : goStartsWith (goNorm s) "SELECT" = true
      · rw [if_pos hp] at h
        obtain ⟨k, hk⟩ := findForbidden_some _ _ h
        exact keywordMsg_ne k _ (by decide) hk.symm
      · rw [if_neg hp] at h
        exact absurd (Option.some.inj h) (by decide)
  · intro h
    cases hl : lookupInput input "query" with
    | none => rfl
    | some v =>
      cases v with
      | str s => exact absurd hl (h s)
      | num n => rfl
      | boolean b => rfl
      | bytes text => rfl
      | time t => rfl
      | null => rfl

/-- The cannot-be-empty message appears exactly when the query value is
the empty string (no trimming is applied before this check). -/
lemma Validate_eq_cannot_empty (input : InputMap) :
    Validate input = some "query cannot be empty" ↔
      lookupInput input "query" = some (GoValue.str "") := by
  unfold Validate
  constructor
  · intro h
    cases hl : lookupInput input "query" with
    | none => rw [hl] at h; exact absurd (Option.some.inj h) (by decide)
    | some v =>
      cases v with
      | str s =>
        rw [hl] at h
        dsimp only at h
        by_cases hq : s = ""
        · rw [hq]
        · rw [if_neg hq] at h
          by_cases hp : goStartsWith (goNorm s) "SELECT" = true
          · rw [if_pos hp] at h
            obtain ⟨k, hk⟩ := findForbidden_some _ _ h
            exact absurd hk.symm (keywordMsg_ne k _ (by decide))
          · rw [if_neg hp] at h
            exact absurd (Option.some.inj h) (by decide)
      | num n => rw [hl] at h; exact absurd (Option.some.inj h) (by decide)
      | boolean b => rw [hl] at h; exact absurd (Option.some.inj h) (by decide)
      | bytes text => rw [hl] at h; exact absurd (Option.some.inj h) (by decide)
      | time t => rw [hl] at h; exact absurd (Option.some.inj h) (by decide)
      | null => rw [hl] at h; exact absurd (Option.some.inj h) (by decide)
  · intro h
    rw [h]
    rfl

/-- A non-empty query whose normalization does not start with SELECT is
rejected with the forbidden-statement message. -/
lemma Validate_reject_not_select (q : String)
    (hp : goStartsWith (goNorm q) "SELECT" = false) (hq : q ≠ "") :
    Validate [("query", GoValue.str q)] = some "only SELECT queries are allowed" := by
  unfold Validate
  rw [show lookupInput [("query", GoValue.str q)] "query" = some (GoValue.str q) from rfl]
  dsimp only
  rw [if_neg hq, if_neg (by rw [hp]; decide)]

/-!
## Claims about Validate (C3, C4, C7)
-/


/-- C3 counterexample: Validate accepts the query selectx although the
first token of its normalization is SELECTX, not SELECT, refuting the
first-token reading of the claim. The check in the source is a string
start check, not a token check. -/
theorem validate_first_token_counterexample :
    Validate [("query", GoValue.str "selectx")] = none ∧
      specFirstToken (goNorm "selectx") ≠ "SELECT" := by decide

/-- C3 (amended): every input accepted by Validate carries a query string
whose trimmed upper-casing starts with the six characters SELECT (the
first token may be longer), and every non-empty query string whose
normalization does not start with SELECT is rejected with the
forbidden-statement message. -/
theorem validate_requires_select_start :
    (∀ input, Validate input = none →
      ∃ q, lookupInput input "query" = some (GoValue.str q) ∧
        goStartsWith (goNorm q) "SELECT" = true) ∧
    (∀ q, goStartsWith (goNorm q) "SELECT" = false → q ≠ "" →
      Validate [("query", GoValue.str q)] = some "only SELECT queries are allowed") := by
  constructor
  · intro input h
    obtain ⟨q, hl, _, hp, _⟩ := Validate_none_char input h
    exact ⟨q, hl, hp⟩
  · exact Validate_reject_not_select

/-- Witness for C3 amended at concrete queries. -/
theorem validate_requires_select_start_witness :
    (Validate [("query", GoValue.str "SELECT 1")] = none ∧
      ∃ q, lookupInput [("query", GoValue.str "SELECT 1")] "query" = some (GoValue.str q) ∧
        goStartsWith (goNorm q) "SELECT" = true) ∧
    (goStartsWith (goNorm "show tables") "SELECT" = false ∧ "show tables" ≠ "" ∧
      Validate [("query", GoValue.str "show tables")] = some "only SELECT queries are allowed") :=
  ⟨⟨by decide, validate_requires_select_start.1 _ (by decide)⟩,
   ⟨by decide, by decide, validate_requires_select_start.2 "show tables" (by decide) (by decide)⟩⟩

/-- C4 counterexample: a whitespace-only query is rejected, but with the
forbidden-statement message, not with either invalid-input message,
because the emptiness check runs on the raw query before trimming. -/
theorem validate_whitespace_counterexample :
    Validate [("query", GoValue.str "   ")] = some "only SELECT queries are allowed" ∧
      Validate [("query", GoValue.str "   ")] ≠ some "query cannot be empty" ∧
      Validate [("query", GoValue.str "   ")] ≠ some "query must be a string" := by decide

/-- C4 (amended): the must-be-a-string error appears exactly when the
query key is missing or not a string; the cannot-be-empty error appears
exactly when the query is the empty string with no trimming applied; a
non-empty query that trims to nothing is rejected with the
forbidden-statement message instead. -/
theorem validate_invalid_input_conditions :
    (∀ input, Validate input = some "query must be a string" ↔
      ∀ s, lookupInput input "query" ≠ some (GoValue.str s)) ∧
    (∀ input, Validate input = some "query cannot be empty" ↔
      lookupInput input "query" = some (GoValue.str "")) ∧
    (∀ q, q ≠ "" → goTrimSpace q = "" →
      Validate [("query", GoValue.str q)] = some "only SELECT queries are allowed") := by
  refine ⟨Validate_eq_must_string, Validate_eq_cannot_empty, ?_⟩
  intro q hq ht
  have hp : goStartsWith (goNorm q) "SELECT" = false := by
    rw [goNorm, ht]; decide
  exact Validate_reject_not_select q hp hq

/-- Witness for C4 amended at concrete inputs. -/
theorem validate_invalid_input_conditions_witness :
    (Validate [("limit", GoValue.num 5)] = some "query must be a string" ↔
      ∀ s, lookupInput [("limit", GoValue.num 5)] "query" ≠ some (GoValue.str s)) ∧
    (Validate [("query", GoValue.str "")] = some "query cannot be empty" ↔
      lookupInput [("query", GoValue.str "")] "query" = some (GoValue.str "")) ∧
    (" \t" ≠ "" ∧ goTrimSpace " \t" = "" ∧
      Validate [("query", GoValue.str " \t")] = some "only SELECT queries are allowed") :=
  ⟨validate_invalid_input_conditions.1 _, validate_invalid_input_conditions.2.1 _,
   by decide, by decide, validate_invalid_input_conditions.2.2 " \t" (by decide) (by decide)⟩

/-- C7: any input whose query string upper-cases (after trimming) to a
string containing one of the seven dangerous keywords as a substring is
rejected by Validate. -/
theorem validate_rejects_forbidden_keywords (input : InputMap) (q : String)
    (hq : lookupInput input "query" = some (GoValue.str q))
    (hk : ∃ k ∈ dangerousKeywords, goContains (goNorm q) k = true) :
    Validate input ≠ none := by
  obtain ⟨k, hkmem, hkc⟩ := hk
  intro h
  obtain ⟨q2, hq2, _, _, hff⟩ := Validate_none_char input h
  have hqq : q2 = q := by
    rw [hq] at hq2
    exact (GoValue.str.inj (Option.some.inj hq2)).symm
  rw [hqq] at hff
  have hfalse := findForbidden_none _ hff k hkmem
  rw [hkc] at hfalse
  exact absurd hfalse (by decide)

/-- Witness for C7: a SELECT query over a table named updates trips the
substring scan. -/
theorem validate_rejects_forbidden_keywords_witness :
    lookupInput [("query", GoValue.str "SELECT * FROM updates")] "query" =
        some (GoValue.str "SELECT * FROM updates") ∧
      (∃ k ∈ dangerousKeywords, goContains (goNorm "SELECT * FROM updates") k = true) ∧
      Validate [("query", GoValue.str "SELECT * FROM updates")] ≠ none :=
  ⟨rfl, ⟨"UPDATE", by decide, by decide⟩,
   validate_rejects_forbidden_keywords _ _ rfl ⟨"UPDATE", by decide, by decide⟩⟩

/-!
## Further helper lemmas for the dispatch and execution claims
-/

/-- Every result built by ExecuteCore has an empty ID field: none of the
branches of Execute sets the ID. -/
lemma ExecuteCore_id (conn : ConnModel) (q : String) : (ExecuteCore conn q).id = "" := by
  unfold ExecuteCore
  cases conn q with
  | fail e => rfl
  | ok d =>
    dsimp only
    cases hc : d.columns with
    | error e => rfl
    | ok cols =>
      cases hs : scanAll d.rows with
      | error e => rfl
      | ok scans =>
        cases d.iterErr with
        | some e => rfl
        | none => rfl

/-- ExecuteTool never returns a nil result together with a nil error. -/
lemma ExecuteTool_no_nil (conn : ConnModel) (name : String) (input : InputMap) :
    ExecuteTool conn name input ≠ GoReturn.ret none none := by
  unfold ExecuteTool
  by_cases hn : name = "database_query"
  · rw [if_pos hn]
    cases hv : Validate input with
    | some m =>
      cases hi : lookupInput input "id" with
      | none => simp
      | some v => cases v <;> simp
    | none =>
      unfold Execute
      cases hq : lookupInput input "query" with
      | none => simp
      | some v => cases v <;> simp
  · rw [if_neg hn]
    simp

/-- Scanning a list of successful rows succeeds with exactly those rows. -/
lemma scanAll_map_ok (l : List (List GoValue)) : scanAll (l.map Except.ok) = Except.ok l := by
  induction l with
  | nil => rfl
  | cons v rest ih => simp [scanAll, ih]

/-- On a validated input, Execute extracts the query string and returns
the ExecuteCore result with a nil Go error. -/
lemma Execute_on_query (conn : ConnModel) (input : InputMap) (q : String)
    (hq : lookupInput input "query" = some (GoValue.str q)) :
    (Execute conn input).1 = GoReturn.ret (some (ExecuteCore conn q)) none := by
  unfold Execute
  rw [hq]

/-- On any database failure, ExecuteCore produces a query_error result. -/
lemma ExecuteCore_fail (conn : ConnModel) (q : String) (hf : dbFails (conn q)) :
    ∃ text m, ExecuteCore conn q = queryErrorResult text m := by
  unfold ExecuteCore
  rcases hf with ⟨e, he⟩ | ⟨d, hd, hcase⟩
  · rw [he]
    exact ⟨_, _, rfl⟩
  · rw [hd]
    dsimp only
    cases hc : d.columns with
    | error e => exact ⟨_, _, rfl⟩
    | ok cols =>
      cases hs : scanAll d.rows with
      | error e => exact ⟨_, _, rfl⟩
      | ok scans =>
        cases hi : d.iterErr with
        | some e => exact ⟨_, _, rfl⟩
        | none =>
          exfalso
          rcases hcase with ⟨e, hce⟩ | ⟨e, hce⟩ | ⟨e, hce⟩
          · rw [hc] at hce
            simp at hce
          · rw [hs] at hce
            simp at hce
          · rw [hi] at hce
            simp at hce

/-!
## Claims about dispatch and execution (C1, C2, C5, C6, C8, C9, C10)
-/

/-- C1 (evaluation of the code at the failing input): ExecuteTool on
database_query with the empty input map hits a validation failure and
then panics on the unchecked id type assertion, instead of returning the
validation_error ToolResult the spec describes. -/
theorem executeTool_missing_id_panics :
    ExecuteTool demoConnOk "database_query" [] = GoReturn.panicked := rfl

/-- C2: the direct /db/query path sends any non-empty query string to the
database connection, even one that Validate would reject; validation is
bypassed on this path. -/
theorem queryHandler_bypasses_validation (conn : ConnModel) (q : String) (lim : Int)
    (hq : q ≠ "") (hv : Validate [("query", GoValue.str q)] ≠ none) :
    (QueryHandler conn q lim).2 = [q] := by
  unfold QueryHandler
  rw [if_neg hq]
  rfl

/-- Witness for C2: a DROP statement reaches the connection unchanged. -/
theorem queryHandler_bypasses_validation_witness :
    ("DROP TABLE contacts" ≠ "") ∧
      Validate [("query", GoValue.str "DROP TABLE contacts")] ≠ none ∧
      (QueryHandler demoConnFail "DROP TABLE contacts" 0).2 = ["DROP TABLE contacts"] :=
  ⟨by decide, by decide,
   queryHandler_bypasses_validation demoConnFail "DROP TABLE contacts" 0 (by decide) (by decide)⟩

/-- C5 counterexample: a batch whose first call fails validation with no
id key in its input aborts with a panic; no result list of the batch
length is produced and the remaining call never executes. -/
theorem executeTools_panic_counterexample :
    demoPanicCalls.length = 2 ∧
      ExecuteTools demoConnOk demoPanicCalls = BatchOutcome.panicked :=
  ⟨rfl, rfl⟩

/-- C5 (amended): whenever no call of the batch triggers the id-assertion
panic in ExecuteTool, ExecuteTools returns one result per call in input
order, each the result of executing that call independently, so a failure
in one call does not abort the others. -/
theorem executeTools_preserves_order (conn : ConnModel) (calls : List ToolCall)
    (h : ∀ c ∈ calls, ExecuteTool conn c.name c.input ≠ GoReturn.panicked) :
    ExecuteTools conn calls = BatchOutcome.results (calls.map (executeOneCall conn)) ∧
      (calls.map (executeOneCall conn)).length = calls.length := by
  refine ⟨?_, by simp⟩
  induction calls with
  | nil => rfl
  | cons c rest ih =>
    have hc := h c (List.mem_cons_self c rest)
    have hrest : ∀ x ∈ rest, ExecuteTool conn x.name x.input ≠ GoReturn.panicked :=
      fun x hx => h x (List.mem_cons_of_mem c hx)
    cases hreg : ExecuteTool conn c.name c.input with
    | panicked => exact absurd hreg hc
    | ret v e =>
      cases v with
      | some r =>
        cases e with
        | none =>
          simp only [ExecuteTools, hreg, ih hrest, List.map_cons]
          simp [executeOneCall, hreg]
        | some msg =>
          simp only [ExecuteTools, hreg, ih hrest, List.map_cons]
          simp [executeOneCall, hreg]
      | none =>
        cases e with
        | some msg =>
          simp only [ExecuteTools, hreg, ih hrest, List.map_cons]
          simp [executeOneCall, hreg]
        | none => exact absurd hreg (ExecuteTool_no_nil conn c.name c.input)

/-- Witness for C5 amended: two valid calls yield two ordered results. -/
theorem executeTools_preserves_order_witness :
    (∀ c ∈ demoGoodCalls, ExecuteTool demoConnOk c.name c.input ≠ GoReturn.panicked) ∧
      ExecuteTools demoConnOk demoGoodCalls =
        BatchOutcome.results (demoGoodCalls.map (executeOneCall demoConnOk)) ∧
      (demoGoodCalls.map (executeOneCall demoConnOk)).length = demoGoodCalls.length := by
  have hyp : ∀ c ∈ demoGoodCalls, ExecuteTool demoConnOk c.name c.input ≠ GoReturn.panicked := by
    decide
  exact ⟨hyp, (executeTools_preserves_order demoConnOk demoGoodCalls hyp).1,
    (executeTools_preserves_order demoConnOk demoGoodCalls hyp).2⟩

/-- C6: on a validated input, every database failure at the query,
column, scan, or iteration stage is returned as a well-formed ToolResult
with is_error true and error type query_error, with a nil Go error; the
failure is never propagated to the caller of Execute. -/
theorem execute_failures_are_query_errors (conn : ConnModel) (input : InputMap) (q : String)
    (hv : Validate input = none)
    (hq : lookupInput input "query" = some (GoValue.str q))
    (hf : dbFails (conn q)) :
    ∃ r m, (Execute conn input).1 = GoReturn.ret (some r) none ∧
      r.isError = true ∧ r.error = some ⟨"query_error", m⟩ := by
  obtain ⟨text, m, hcore⟩ := ExecuteCore_fail conn q hf
  refine ⟨ExecuteCore conn q, m, Execute_on_query conn input q hq, ?_, ?_⟩
  · rw [hcore]
    rfl
  · rw [hcore]
    rfl

/-- Witness for C6: a failing connection yields a query_error result. -/
theorem execute_failures_are_query_errors_witness :
    Validate [("query", GoValue.str "SELECT 1")] = none ∧
      dbFails (demoConnFail "SELECT 1") ∧
      (∃ r m, (Execute demoConnFail [("query", GoValue.str "SELECT 1")]).1 =
          GoReturn.ret (some r) none ∧ r.isError = true ∧ r.error = some ⟨"query_error", m⟩) :=
  ⟨by decide, Or.inl ⟨"connection lost", rfl⟩,
   execute_failures_are_query_errors demoConnFail _ "SELECT 1" (by decide) rfl
     (Or.inl ⟨"connection lost", rfl⟩)⟩

/-- C8: on a successful run, Execute returns a non-error result whose
single text content is the pretty-printed JSON of the document holding
the unmodified query string, the cursor column names, the row count
equal to the number of data entries, and the converted rows; the value
conversion decodes byte payloads as text, formats times as RFC 3339,
keeps null as null, and passes other values through unchanged. -/
theorem execute_success_shape (conn : ConnModel) (input : InputMap) (q : String)
    (cols : List String) (scans : List (List GoValue))
    (hq : lookupInput input "query" = some (GoValue.str q))
    (hc : conn q = DbResponse.ok
      { columns := Except.ok cols, rows := scans.map Except.ok, iterErr := none }) :
    ((Execute conn input).1 = GoReturn.ret (some
      { id := "",
        content := [⟨"text", marshalIndent (responseJson q cols (scans.map (rowJson cols)))⟩],
        isError := false, error := none }) none) ∧
    (responseJson q cols (scans.map (rowJson cols)) = Json.jobj
      [("query", Json.jstr q),
       ("columns", Json.jarr (cols.map Json.jstr)),
       ("row_count", Json.jnum scans.length),
       ("data", if scans.isEmpty then Json.jnull
                else Json.jarr (scans.map (rowJson cols)))]) ∧
    (∀ text, convertValue (GoValue.bytes text) = GoValue.str text) ∧
    (∀ t, convertValue (GoValue.time t) = GoValue.str (formatRFC3339 t)) ∧
    (convertValue GoValue.null = GoValue.null) ∧
    (∀ n, convertValue (GoValue.num n) = GoValue.num n) ∧
    (∀ c v, rowJson [c] [v] = Json.jobj [(c, jsonOfGoValue (convertValue v))]) := by
  refine ⟨?_, ?_, fun _ => rfl, fun _ => rfl, rfl, fun _ => rfl, fun c v => rfl⟩
  · unfold Execute
    rw [hq]
    dsimp only
    unfold ExecuteCore
    rw [hc]
    dsimp only
    rw [scanAll_map_ok]
  · unfold responseJson
    cases scans with
    | nil => rfl
    | cons s rest => simp

/-- Witness for C8 at the query of the round-trip example. -/
theorem execute_success_shape_witness :
    lookupInput [("query", GoValue.str "SELECT 1 as x")] "query" =
        some (GoValue.str "SELECT 1 as x") ∧
      demoConnOk "SELECT 1 as x" = DbResponse.ok
        { columns := Except.ok ["x"], rows := [[GoValue.num 1]].map Except.ok,
          iterErr := none } ∧
      (Execute demoConnOk [("query", GoValue.str "SELECT 1 as x")]).1 = GoReturn.ret (some
        { id := "",
          content := [⟨"text", marshalIndent (responseJson "SELECT 1 as x" ["x"]
            ([[GoValue.num 1]].map (rowJson ["x"])))⟩],
          isError := false, error := none }) none :=
  ⟨rfl, rfl,
   (execute_success_shape demoConnOk [("query", GoValue.str "SELECT 1 as x")]
     "SELECT 1 as x" ["x"] [[GoValue.num 1]] rfl rfl).1⟩

/-- C9: when a call passes validation, the result produced by ExecuteTool
and stored unchanged by ExecuteTools carries an empty ID field, although
the call itself carries an id; the call id is copied into results only on
the error branches. -/
theorem success_result_id_empty (conn : ConnModel) (input : InputMap) (cid ctype : String)
    (hv : Validate input = none) :
    ∃ r, ExecuteTool conn "database_query" input = GoReturn.ret (some r) none ∧
      ExecuteTools conn
        [{ id := cid, type := ctype, name := "database_query", input := input }] =
        BatchOutcome.results [r] ∧
      r.id = "" := by
  obtain ⟨q, hq, _, _, _⟩ := Validate_none_char input hv
  have hreg : ExecuteTool conn "database_query" input =
      GoReturn.ret (some (ExecuteCore conn q)) none := by
    unfold ExecuteTool
    rw [if_pos rfl, hv]
    dsimp only
    unfold Execute
    rw [hq]
  refine ⟨ExecuteCore conn q, hreg, ?_, ExecuteCore_id conn q⟩
  simp only [ExecuteTools]
  rw [hreg]

/-- Witness for C9: a valid call with a non-empty call id still yields a
stored result with an empty ID field. -/
theorem success_result_id_empty_witness :
    Validate [("query", GoValue.str "SELECT 1")] = none ∧
      ∃ r, ExecuteTool demoConnOk "database_query" [("query", GoValue.str "SELECT 1")] =
          GoReturn.ret (some r) none ∧
        ExecuteTools demoConnOk
          [{ id := "toolu_01", type := "tool_use", name := "database_query",
             input := [("query", GoValue.str "SELECT 1")] }] =
          BatchOutcome.results [r] ∧
        r.id = "" :=
  ⟨by decide, success_result_id_empty demoConnOk _ "toolu_01" "tool_use" (by decide)⟩

/-- C10: the tool list the LLM client hardcodes is not the definition the
registry holds: the client schema describes the query property with a
shorter string and adds a limit property of type integer with minimum 1
and maximum 1000, which the registry definition lacks. -/
theorem client_tool_definitions_drift :
    getAvailableTools ≠ [GetDefinition] ∧
      schemaPropStr (getAvailableTools.headD GetDefinition) "query" "description" =
        some "SQL SELECT query to execute" ∧
      schemaPropStr GetDefinition "query" "description" =
        some "SQL SELECT query to execute (include LIMIT clause if needed)" ∧
      schemaPropStr (getAvailableTools.headD GetDefinition) "limit" "type" = some "integer" ∧
      schemaPropNum (getAvailableTools.headD GetDefinition) "limit" "minimum" = some 1 ∧
      schemaPropNum (getAvailableTools.headD GetDefinition) "limit" "maximum" = some 1000 ∧
      (schemaProp GetDefinition "limit").isSome = false := by
  refine ⟨?_, rfl, rfl, rfl, rfl, rfl, rfl⟩
  intro h
  have hcongr := congrArg
    (fun l => schemaPropStr (l.headD GetDefinition) "query" "description") h
  exact absurd hcongr (by decide)
